import Mathlib

/-!
Verification of the queueing-simulation repository (main.py, mmq_sim.py,
plot_wq_vs_servers.py) against its natural-language specification.

The Python code is shallowly embedded over exact rationals:
* pure arithmetic helpers (mm1_theory, mean_ci) become Lean functions; Python
  float division by zero is modelled by an explicit Except error channel where
  a claim depends on it; the NaN float sentinel produced by numpy mean on an
  empty or NaN-containing array is modelled as the none case of Option.
* the SimPy discrete-event engine used by both main.py and mmq_sim.py is
  embedded as a fuel-indexed step function over an explicit simulation state:
  an event queue ordered by the key (time, priority, insertion sequence),
  exactly as SimPy's heap of (time, priority, eid) tuples, with URGENT = 0 for
  process-initialisation events and NORMAL = 1 for timeouts and granted
  resource requests, and env.run(until=Tsim) dispatching exactly the events
  whose scheduled time is strictly below Tsim.
* the numpy random stream is abstracted as an input sequence of standard
  exponential draws, consumed in execution order; rng.exponential(scale)
  becomes scale * next draw.
-/

/-- numpy mean of a list of real values: NaN (modelled as none) on the empty
array, otherwise the arithmetic mean.  Used both for np.mean and for the
value of float(np.mean(xs)) if xs else float("nan") in the run drivers. -/
def npMean (l : List ℚ) : Option ℚ :=
  if l = [] then none else some (l.sum / l.length)

/-- numpy mean of a list of floats that may contain the NaN sentinel
(modelled as none): the empty array gives NaN, any NaN input makes the
result NaN, otherwise the arithmetic mean.  This is the semantics of the
plain np.mean calls in print_server_table (mmq_sim.py lines 121-124) and of
vals.mean() in mean_ci when a per-run metric is NaN. -/
def npMeanF (l : List (Option ℚ)) : Option ℚ :=
  if l = [] then none
  else if none ∈ l then none
  else some ((l.map (fun x => x.getD 0)).sum / l.length)

/-- Python-level errors surfaced by the arithmetic code paths. -/
inductive PyErr where
  | valueError (msg : String)
  | zeroDivision
deriving DecidableEq

/-- Python division: raises ZeroDivisionError on a zero denominator
(Python floats do not produce IEEE infinities for x / 0.0). -/
def pydiv (a b : ℚ) : Except PyErr ℚ :=
  if b = 0 then .error .zeroDivision else .ok (a / b)

/-- The record returned by mm1_theory (main.py line 16). -/
structure MM1Theory where
  rho : ℚ
  L : ℚ
  Lq : ℚ
  W : ℚ
  Wq : ℚ
deriving DecidableEq

/-- main.py lines 8-16: closed-form M/M/1 reference.  The lambda >= mu check
raises ValueError first; every subsequent Python division is modelled by
pydiv so that the mu = 0 ZeroDivisionError path is visible. -/
def mm1_theory (lmbda mu : ℚ) : Except PyErr MM1Theory :=
  if lmbda ≥ mu then .error (.valueError "Unstable: need lambda < mu for M/M/1.")
  else do
    let p ← pydiv lmbda mu
    let L ← pydiv p (1 - p)
    let Lq ← pydiv (p ^ 2) (1 - p)
    let W ← pydiv 1 (mu - lmbda)
    let Wq ← pydiv p (mu - lmbda)
    return ⟨p, L, Lq, W, Wq⟩

/-- Sample variance with ddof = 1, the square of numpy std(ddof=1)
(main.py line 26). -/
def sampleVar (l : List ℚ) : ℚ :=
  let n : ℚ := l.length
  let m := l.sum / n
  (l.map (fun x => (x - m) ^ 2)).sum / (n - 1)

/-- main.py lines 20-29.  The two external transcendental functions are
abstracted as parameters: sqrtQ models math.sqrt (and the square root inside
numpy std), tppf models scipy.stats.t.ppf (quantile, degrees of freedom).
m = float(vals.mean()) is NaN (none) exactly on the empty list; in the
n >= 2 branch the mean is a real value, written directly. -/
def mean_ci (sqrtQ : ℚ → ℚ) (tppf : ℚ → ℕ → ℚ) (vals : List ℚ)
    (alpha : ℚ := 1 / 20) : Option ℚ × (Option ℚ × Option ℚ) :=
  let n := vals.length
  let m := npMean vals
  if n < 2 then (m, (m, m))
  else
    let mv := vals.sum / (n : ℚ)
    let s := sqrtQ (sampleVar vals)
    let tcrit := tppf (1 - alpha / 2) (n - 1)
    let half := tcrit * s / sqrtQ (n : ℚ)
    (some mv, (some (mv - half), some (mv + half)))

/-- AreaTracker (main.py lines 33-46, identical in mmq_sim.py lines 18-31):
N and Nq are Python ints (so ℤ), the clock and areas are reals (ℚ). -/
structure AreaTracker where
  N : ℤ
  Nq : ℤ
  last_t : ℚ
  areaN : ℚ
  areaNq : ℚ
deriving DecidableEq

/-- AreaTracker.update (main.py lines 41-46): integrate the currently held
N and Nq over the elapsed dt when dt > 0, otherwise do nothing. -/
def AreaTracker.update (tr : AreaTracker) (t : ℚ) : AreaTracker :=
  let dt := t - tr.last_t
  if dt > 0 then
    { tr with
      areaN := tr.areaN + tr.N * dt
      areaNq := tr.areaNq + tr.Nq * dt
      last_t := t }
  else tr

/-- A scripted tracker history: at each instant t, call update t and then
mutate N and Nq to the given new values (the integrate-then-mutate ordering
every caller in the source follows). -/
def runScript (tr : AreaTracker) : List (ℚ × ℤ × ℤ) → AreaTracker
  | [] => tr
  | (t, n, nq) :: rest =>
      runScript { tr.update t with N := n, Nq := nq } rest

/-- Exact integral of the piecewise-constant function that holds value n0
from t0 to the first scripted time, then each scripted N value up to the
next scripted time. -/
def stepIntegralN (t0 : ℚ) (n0 : ℤ) : List (ℚ × ℤ × ℤ) → ℚ
  | [] => 0
  | (t, n, _) :: rest => n0 * (t - t0) + stepIntegralN t n rest

/-- Exact integral of the piecewise-constant Nq trajectory, as for
stepIntegralN. -/
def stepIntegralNq (t0 : ℚ) (n0 : ℤ) : List (ℚ × ℤ × ℤ) → ℚ
  | [] => 0
  | (t, _, nq) :: rest => n0 * (t - t0) + stepIntegralNq t nq rest

/-- Static configuration of one simulation run. -/
structure Cfg where
  lmbda : ℚ
  mu : ℚ
  cap : ℚ
  Tsim : ℚ

/-- Pending-event payloads: the arrival-generator timeout, a customer
process initialisation (SimPy Initialize, URGENT priority), the resumption
of a customer whose resource request was granted, and a customer's
service-completion timeout. -/
inductive EvKind where
  | arrGen
  | custInit (arr : ℚ)
  | custGrant (arr : ℚ)
  | custDone (arr svcStart svc : ℚ)
deriving DecidableEq

/-- One scheduled event: SimPy orders its heap by (time, priority, eid). -/
structure Event where
  time : ℚ
  prio : ℕ
  seq : ℕ
  kind : EvKind
deriving DecidableEq

/-- Strict ordering on SimPy event keys (time, priority, insertion seq). -/
def keyLT (x y : Event) : Prop :=
  x.time < y.time ∨
    (x.time = y.time ∧ (x.prio < y.prio ∨ (x.prio = y.prio ∧ x.seq < y.seq)))

instance (x y : Event) : Decidable (keyLT x y) := by
  unfold keyLT; exact inferInstance

/-- Insert an event into the key-sorted pending list. -/
def insertEv (e : Event) : List Event → List Event
  | [] => [e]
  | x :: xs => if keyLT e x then e :: x :: xs else x :: insertEv e xs

/-- Full state of one SimPy environment together with the per-run shared
objects (resource, tracker, stats dictionaries) of main.py / mmq_sim.py. -/
structure SimState where
  now : ℚ
  events : List Event
  seq : ℕ
  stream : ℕ → ℚ
  idx : ℕ
  count : ℕ
  resQ : List ℚ
  tracker : AreaTracker
  waits : List ℚ
  sysTimes : List ℚ
  busy : ℚ

/-- Schedule an event kind at time t with the given priority, consuming one
fresh sequence number. -/
def SimState.schedule (s : SimState) (t : ℚ) (p : ℕ) (k : EvKind) : SimState :=
  { s with events := insertEv ⟨t, p, s.seq, k⟩ s.events, seq := s.seq + 1 }

/-- Consume the next random draw, scaled: rng.exponential(scale). -/
def SimState.draw (s : SimState) (scale : ℚ) : ℚ × SimState :=
  (scale * s.stream s.idx, { s with idx := s.idx + 1 })

/-- tracker.update(t) on the run's shared tracker. -/
def SimState.trackUpd (s : SimState) (t : ℚ) : SimState :=
  { s with tracker := s.tracker.update t }

/-- SimPy Resource put-queue processing: examine the head of the request
queue and grant it when a server slot is free (len(users) < capacity),
scheduling the granted customer's resumption at the current instant with
NORMAL priority.  Called after every new request and after every release. -/
def SimState.triggerPut (s : SimState) (cap : ℚ) : SimState :=
  match s.resQ with
  | [] => s
  | a :: rest =>
      if (s.count : ℚ) < cap then
        ({ s with resQ := rest, count := s.count + 1 }).schedule s.now 1
          (.custGrant a)
      else s

/-- Dispatch one event: the body of the arrivals generator loop
(main.py lines 86-101), a customer's request (line 54), a customer's
granted-service segment (lines 56-72), and a customer's completion segment
(lines 73-82).  mmq_sim.py lines 35-83 are the same processes except that
its customer does not record system_times; that list is simply unread by
the M/M/c metrics below. -/
def dispatch (cfg : Cfg) (s : SimState) : EvKind → SimState
  | .arrGen =>
      if s.now > cfg.Tsim then s
      else
        let s := s.trackUpd s.now
        let s := { s with tracker := { s.tracker with N := s.tracker.N + 1 } }
        let s :=
          if (s.count : ℚ) ≥ cfg.cap then
            { s with tracker := { s.tracker with Nq := s.tracker.Nq + 1 } }
          else s
        let s := s.schedule s.now 0 (.custInit s.now)
        let (ia, s) := s.draw (1 / cfg.lmbda)
        s.schedule (s.now + ia) 1 .arrGen
  | .custInit arr =>
      ({ s with resQ := s.resQ ++ [arr] }).triggerPut cfg.cap
  | .custGrant arr =>
      let wait := s.now - arr
      let s :=
        if wait > 0 then
          let s := s.trackUpd s.now
          { s with tracker := { s.tracker with Nq := s.tracker.Nq - 1 } }
        else s
      let (svc, s) := s.draw (1 / cfg.mu)
      let bs := max 0 s.now
      let be := min cfg.Tsim (s.now + svc)
      let s := if be > bs then { s with busy := s.busy + (be - bs) } else s
      s.schedule (s.now + svc) 1 (.custDone arr s.now svc)
  | .custDone arr svcStart _svc =>
      let wait := svcStart - arr
      let s :=
        if s.now ≤ cfg.Tsim then
          { s with
            waits := s.waits ++ [wait]
            sysTimes := s.sysTimes ++ [s.now - arr] }
        else s
      let s := { s with count := s.count - 1 }
      let s := s.triggerPut cfg.cap
      let s := s.trackUpd s.now
      { s with tracker := { s.tracker with N := s.tracker.N - 1 } }

/-- env.run(until=Tsim): repeatedly dispatch the earliest pending event
while its scheduled time is strictly below the horizon (the stop event at
Tsim is URGENT and precedes, by sequence number, every event scheduled at
or beyond Tsim during the run, so no such event is ever dispatched).
Fuel bounds the number of dispatches. -/
def runUntil (cfg : Cfg) : ℕ → SimState → SimState
  | 0, s => s
  | f + 1, s =>
      match s.events with
      | [] => s
      | e :: rest =>
          if e.time < cfg.Tsim then
            runUntil cfg f (dispatch cfg { s with events := rest, now := e.time } e.kind)
          else s

/-- Fresh environment, resource, tracker and stats, with the arrivals
process started: dispatching its Initialize event draws the first
inter-arrival gap and schedules the first arrival timeout. -/
def init_state (cfg : Cfg) (stream : ℕ → ℚ) : SimState :=
  { now := 0
    events := [⟨(1 / cfg.lmbda) * stream 0, 1, 1, .arrGen⟩]
    seq := 2
    stream := stream
    idx := 1
    count := 0
    resQ := []
    tracker := ⟨0, 0, 0, 0, 0⟩
    waits := []
    sysTimes := []
    busy := 0 }

/-- One full replication: run the scheduler to the horizon, then finalize
the tracker at Tsim (main.py lines 113-117, mmq_sim.py lines 95-99). -/
def simulate_core (cfg : Cfg) (stream : ℕ → ℚ) (fuel : ℕ) : SimState :=
  let s := runUntil cfg fuel (init_state cfg stream)
  { s with tracker := s.tracker.update cfg.Tsim }

/-- RunMetrics of simulate_mm1_simpy (main.py line 128). -/
structure MM1Metrics where
  rho : ℚ
  Wq : Option ℚ
  W : Option ℚ
  Lq : ℚ
  L : ℚ
deriving DecidableEq

/-- main.py lines 105-128: one M/M/1 replication and its metrics record.
simpy.Resource's capacity check (raises ValueError for capacity <= 0) passes
trivially here: main.py line 108 constructs the resource with the constant
capacity = 1, so this driver has no reachable error path. -/
def simulate_mm1_simpy (lmbda mu Tsim : ℚ) (stream : ℕ → ℚ) (fuel : ℕ) :
    MM1Metrics :=
  let s := simulate_core ⟨lmbda, mu, 1, Tsim⟩ stream fuel
  { rho := s.busy / Tsim
    Wq := npMean s.waits
    W := npMean s.sysTimes
    Lq := s.tracker.areaNq / Tsim
    L := s.tracker.areaN / Tsim }

/-- mmq_sim.py line 12. -/
def SERVER_COST_PER_HR : ℚ := 50

/-- mmq_sim.py line 13. -/
def WAIT_COST_PER_HR : ℚ := 10

/-- RunMetrics of simulate_mmc (mmq_sim.py line 108). -/
structure MMCMetrics where
  rho : ℚ
  Wq : Option ℚ
  Lq : ℚ
  cost_hr : ℚ
deriving DecidableEq

/-- mmq_sim.py lines 87-108: one M/M/c replication and its metrics record.
The capacity is carried as a plain number, exactly as SimPy stores it, and
the driver itself performs no validation of lmbda, mu, c or Tsim; the only
up-front check is inside simpy.Resource.__init__ (mmq_sim.py line 90),
which raises ValueError for capacity <= 0 — after the rng and environment
are created, before any event runs.  Any c > 0 (non-integer included) is
accepted. -/
def simulate_mmc (lmbda mu c Tsim : ℚ) (stream : ℕ → ℚ) (fuel : ℕ) :
    Except PyErr MMCMetrics :=
  if c ≤ 0 then .error (.valueError "\"capacity\" must be > 0.")
  else
    let s := simulate_core ⟨lmbda, mu, c, Tsim⟩ stream fuel
    let Lq := s.tracker.areaNq / Tsim
    .ok { rho := s.busy / (c * Tsim)
          Wq := npMean s.waits
          Lq := Lq
          cost_hr := SERVER_COST_PER_HR * c + WAIT_COST_PER_HR * Lq }

/-- The mean row of print_server_table (mmq_sim.py lines 121-124): plain
np.mean over the per-run metric columns. -/
structure TableMeans where
  rho_mean : Option ℚ
  Wq_mean : Option ℚ
  Lq_mean : Option ℚ
  cost_mean : Option ℚ
deriving DecidableEq

/-- mmq_sim.py lines 112-129, reduced to the computed summary values (the
table printing itself carries no further computation). -/
def print_server_table (runs : List MMCMetrics) : TableMeans :=
  { rho_mean := npMean (runs.map (·.rho))
    Wq_mean := npMeanF (runs.map (·.Wq))
    Lq_mean := npMean (runs.map (·.Lq))
    cost_mean := npMean (runs.map (·.cost_hr)) }

/-- A concrete random stream from a finite list of draws, padded with a
default value. -/
def streamOf (l : List ℚ) (d : ℚ) : ℕ → ℚ := fun n => l.getD n d

/-! ## Helper lemmas -/

/-- AreaTracker.update never changes the held counter N. -/
lemma AreaTracker.update_N (tr : AreaTracker) (t : ℚ) :
    (tr.update t).N = tr.N := by
  simp only [AreaTracker.update]; split <;> rfl

/-- AreaTracker.update never changes the held counter Nq. -/
lemma AreaTracker.update_Nq (tr : AreaTracker) (t : ℚ) :
    (tr.update t).Nq = tr.Nq := by
  simp only [AreaTracker.update]; split <;> rfl

/-- The script-runner accumulates exactly the piecewise-constant integrals,
for strictly increasing scripted times starting above the tracker clock. -/
lemma runScript_area (script : List (ℚ × ℤ × ℤ)) : ∀ tr : AreaTracker,
    List.Chain (· < ·) tr.last_t (script.map (·.1)) →
    (runScript tr script).areaN = tr.areaN + stepIntegralN tr.last_t tr.N script ∧
    (runScript tr script).areaNq = tr.areaNq + stepIntegralNq tr.last_t tr.Nq script := by
  induction script with
  | nil => intro tr _; simp [runScript, stepIntegralN, stepIntegralNq]
  | cons hd tl ih =>
    rintro tr hchain
    obtain ⟨t, n, nq⟩ := hd
    simp only [List.map_cons, List.chain_cons] at hchain
    obtain ⟨hlt, hchain⟩ := hchain
    have hupd : tr.update t =
        { N := tr.N, Nq := tr.Nq, last_t := t,
          areaN := tr.areaN + tr.N * (t - tr.last_t),
          areaNq := tr.areaNq + tr.Nq * (t - tr.last_t) } := by
      unfold AreaTracker.update
      rw [if_pos (by linarith)]
    have := ih { tr.update t with N := n, Nq := nq } (by simp [hupd]; exact hchain)
    simp only [runScript, stepIntegralN, stepIntegralNq]
    rw [this.1, this.2]
    simp [hupd]; constructor <;> ring

/-- Evaluation of mm1_theory on the stable, nondegenerate domain. -/
lemma mm1_theory_ok (lmbda mu : ℚ) (h : lmbda < mu) (hm : mu ≠ 0) :
    mm1_theory lmbda mu =
      .ok ⟨lmbda / mu, (lmbda / mu) / (1 - lmbda / mu),
           (lmbda / mu) ^ 2 / (1 - lmbda / mu), 1 / (mu - lmbda),
           (lmbda / mu) / (mu - lmbda)⟩ := by
  have hne : lmbda / mu ≠ 1 := by
    intro hc
    rw [div_eq_iff hm, one_mul] at hc
    exact h.ne hc
  have h1 : (1 : ℚ) - lmbda / mu ≠ 0 := sub_ne_zero.mpr (Ne.symm hne)
  have h2 : mu - lmbda ≠ 0 := sub_ne_zero.mpr h.ne'
  unfold mm1_theory pydiv
  rw [if_neg (not_le.mpr h)]
  simp [Bind.bind, Except.bind, hm, h1, h2, Pure.pure, Except.pure]

/-! ## Claims -/

/-- C1: AreaTracker.update with t beyond the stored clock adds
N * (t - last_t) and Nq * (t - last_t) to the two areas and advances the
clock to t; with t at or below the stored clock it is a strict no-op; and
a scripted sequence of strictly increasing update times with
integrate-then-mutate N/Nq mutations makes areaN/areaNq the exact
piecewise-constant integrals of N and Nq. -/
theorem c1_area_tracker_exact (tr : AreaTracker) (t : ℚ)
    (script : List (ℚ × ℤ × ℤ)) :
    (tr.last_t < t →
      tr.update t =
        { N := tr.N, Nq := tr.Nq, last_t := t,
          areaN := tr.areaN + tr.N * (t - tr.last_t),
          areaNq := tr.areaNq + tr.Nq * (t - tr.last_t) }) ∧
    (t ≤ tr.last_t → tr.update t = tr) ∧
    (List.Chain (· < ·) tr.last_t (script.map (·.1)) →
      (runScript tr script).areaN = tr.areaN + stepIntegralN tr.last_t tr.N script ∧
      (runScript tr script).areaNq = tr.areaNq + stepIntegralNq tr.last_t tr.Nq script) := by
  refine ⟨?_, ?_, runScript_area script tr⟩
  · intro h
    unfold AreaTracker.update
    rw [if_pos (by linarith)]
  · intro h
    unfold AreaTracker.update
    rw [if_neg (by linarith)]

/-- Witness for C1 at a concrete tracker and script. -/
theorem c1_witness :
    ((0 : ℚ) < 1 ∧
      AreaTracker.update ⟨3, 2, 0, 0, 0⟩ 1 = ⟨3, 2, 1, 3, 2⟩) ∧
    (List.Chain (· < ·) (0 : ℚ) [1, 3] ∧
      (runScript ⟨3, 2, 0, 0, 0⟩ [(1, 5, 4), (3, 0, 0)]).areaN = 0 + 13 ∧
      (runScript ⟨3, 2, 0, 0, 0⟩ [(1, 5, 4), (3, 0, 0)]).areaNq = 0 + 10) := by
  have h := c1_area_tracker_exact ⟨3, 2, 0, 0, 0⟩ 1 [(1, 5, 4), (3, 0, 0)]
  refine ⟨⟨by norm_num, ?_⟩, ⟨by norm_num, ?_, ?_⟩⟩
  · have := h.1 (by norm_num)
    rw [this]; norm_num
  · have := (h.2.2 (by norm_num)).1
    rw [this]; norm_num [stepIntegralN]
  · have := (h.2.2 (by norm_num)).2
    rw [this]; norm_num [stepIntegralNq]

/-- C3 counterexample: at lambda = -1, mu = 0 we have lambda < mu, yet the
code raises (a ZeroDivisionError computing rho = lambda / mu), so
"raises an error if and only if lambda >= mu" is false as stated. -/
theorem c3_counterexample :
    mm1_theory (-1) 0 = .error .zeroDivision ∧ ¬ ((-1 : ℚ) ≥ 0) := by
  constructor
  · norm_num [mm1_theory, pydiv, Bind.bind, Except.bind]
  · norm_num

/-- C3 (amended): mm1_theory raises an error iff lambda >= mu or mu = 0
(the instability ValueError fires first; otherwise mu = 0 hits a
ZeroDivisionError computing rho); for lambda < mu with mu nonzero it
returns exactly rho = lambda/mu, L = rho/(1-rho), Lq = rho^2/(1-rho),
W = 1/(mu-lambda), Wq = rho/(mu-lambda), as exact arithmetic on its
arguments with no other effect. -/
theorem c3_mm1_theory_error_iff (lmbda mu : ℚ) :
    ((∃ e, mm1_theory lmbda mu = .error e) ↔ (mu ≤ lmbda ∨ mu = 0)) ∧
    (lmbda < mu → mu ≠ 0 →
      mm1_theory lmbda mu =
        .ok ⟨lmbda / mu, (lmbda / mu) / (1 - lmbda / mu),
             (lmbda / mu) ^ 2 / (1 - lmbda / mu), 1 / (mu - lmbda),
             (lmbda / mu) / (mu - lmbda)⟩) := by
  constructor
  · constructor
    · intro ⟨e, he⟩
      by_contra hcon
      push_neg at hcon
      obtain ⟨hlt, hm⟩ := hcon
      rw [mm1_theory_ok lmbda mu hlt hm] at he
      exact Except.noConfusion he
    · rintro (hle | hm)
      · exact ⟨_, by unfold mm1_theory; rw [if_pos hle]⟩
      · rcases le_or_lt mu lmbda with hle | hlt
        · exact ⟨_, by unfold mm1_theory; rw [if_pos hle]⟩
        · refine ⟨.zeroDivision, ?_⟩
          unfold mm1_theory pydiv
          rw [if_neg (not_le.mpr hlt), if_pos hm]
          rfl
  · intro h hm
    exact mm1_theory_ok lmbda mu h hm

/-- Witness for C3 at lambda = 1, mu = 2. -/
theorem c3_witness :
    ((1 : ℚ) < 2 ∧ (2 : ℚ) ≠ 0) ∧
    mm1_theory 1 2 = .ok ⟨1 / 2, 1, 1 / 2, 1, 1 / 2⟩ := by
  refine ⟨⟨by norm_num, by norm_num⟩, ?_⟩
  have h := (c3_mm1_theory_error_iff 1 2).2 (by norm_num) (by norm_num)
  rw [h]; norm_num

/-- C8: for valid rates with lambda < mu, the theoretical record satisfies
Little's laws L = lambda * W and Lq = lambda * Wq and the identity
W = Wq + 1/mu, exactly. -/
theorem c8_littles_laws (lmbda mu : ℚ) (r : MM1Theory)
    (h0 : 0 < lmbda) (h : lmbda < mu) (hr : mm1_theory lmbda mu = .ok r) :
    r.L = lmbda * r.W ∧ r.Lq = lmbda * r.Wq ∧ r.W = r.Wq + 1 / mu := by
  have hm : mu ≠ 0 := (h0.trans h).ne'
  rw [mm1_theory_ok lmbda mu h hm] at hr
  injection hr with hr
  subst hr
  have h1 : (1 : ℚ) - lmbda / mu ≠ 0 := by
    intro hc
    apply h.ne
    field_simp at hc
    linarith
  have h2 : mu - lmbda ≠ 0 := sub_ne_zero.mpr h.ne'
  refine ⟨?_, ?_, ?_⟩ <;> (show _ = _) <;> field_simp <;> ring

/-- Witness for C8 at lambda = 1, mu = 2. -/
theorem c8_witness :
    ((0 : ℚ) < 1 ∧ (1 : ℚ) < 2 ∧
      mm1_theory 1 2 = .ok ⟨1 / 2, 1, 1 / 2, 1, 1 / 2⟩) ∧
    ((1 : ℚ) = 1 * 1 ∧ (1 / 2 : ℚ) = 1 * (1 / 2) ∧ (1 : ℚ) = 1 / 2 + 1 / 2) := by
  have hth : mm1_theory 1 2 = .ok ⟨1 / 2, 1, 1 / 2, 1, 1 / 2⟩ := by
    rw [mm1_theory_ok 1 2 (by norm_num) (by norm_num)]; norm_num
  have h := c8_littles_laws 1 2 ⟨1 / 2, 1, 1 / 2, 1, 1 / 2⟩ (by norm_num)
    (by norm_num) hth
  refine ⟨⟨by norm_num, by norm_num, hth⟩, ?_⟩
  simpa using h

/-- C4: on a list of at least 2 values, mean_ci returns the sample mean m
and the Student-t interval (m - half, m + half) with
half = tppf(0.975, n-1) * sample_std(ddof=1) / sqrt(n); since the t
quantile and square roots are nonnegative, ci_low <= mean <= ci_high; and
on fewer than 2 values the interval collapses to the point (mean, mean).
The external math.sqrt and scipy.stats.t.ppf are the abstract parameters
sqrtQ and tppf, with their nonnegativity on this domain as hypotheses. -/
theorem c4_mean_ci_student_t (sqrtQ : ℚ → ℚ) (tppf : ℚ → ℕ → ℚ)
    (vals : List ℚ) (h2 : 2 ≤ vals.length)
    (hs : 0 ≤ sqrtQ (sampleVar vals))
    (hn : 0 ≤ sqrtQ ((vals.length : ℚ)))
    (ht : 0 ≤ tppf (39 / 40) (vals.length - 1)) :
    (mean_ci sqrtQ tppf vals =
      (some (vals.sum / (vals.length : ℚ)),
       (some (vals.sum / (vals.length : ℚ) -
          tppf (39 / 40) (vals.length - 1) * sqrtQ (sampleVar vals) /
            sqrtQ ((vals.length : ℚ))),
        some (vals.sum / (vals.length : ℚ) +
          tppf (39 / 40) (vals.length - 1) * sqrtQ (sampleVar vals) /
            sqrtQ ((vals.length : ℚ))))) ∧
      vals.sum / (vals.length : ℚ) -
          tppf (39 / 40) (vals.length - 1) * sqrtQ (sampleVar vals) /
            sqrtQ ((vals.length : ℚ)) ≤ vals.sum / (vals.length : ℚ) ∧
      vals.sum / (vals.length : ℚ) ≤
        vals.sum / (vals.length : ℚ) +
          tppf (39 / 40) (vals.length - 1) * sqrtQ (sampleVar vals) /
            sqrtQ ((vals.length : ℚ))) ∧
    (∀ vs : List ℚ, vs.length < 2 →
      mean_ci sqrtQ tppf vs = (npMean vs, (npMean vs, npMean vs))) := by
  have hhalf : 0 ≤ tppf (39 / 40) (vals.length - 1) * sqrtQ (sampleVar vals) /
      sqrtQ ((vals.length : ℚ)) := div_nonneg (mul_nonneg ht hs) hn
  refine ⟨⟨?_, by linarith, by linarith⟩, ?_⟩
  · unfold mean_ci
    rw [if_neg (by omega)]
    norm_num
  · intro vs hvs
    unfold mean_ci
    rw [if_pos hvs]

/-- Witness for C4 at vals = [1, 3] with concrete oracle stand-ins. -/
theorem c4_witness :
    mean_ci (fun _ => 1) (fun _ _ => 2) [1, 3] = (some 2, (some 0, some 4)) ∧
    (0 : ℚ) ≤ 2 ∧ (2 : ℚ) ≤ 4 := by
  have h := (c4_mean_ci_student_t (fun _ => 1) (fun _ _ => 2) [1, 3]
    (by norm_num) (by norm_num) (by norm_num) (by norm_num)).1.1
  refine ⟨?_, by norm_num, by norm_num⟩
  rw [h]; norm_num

/-- C10: on the empty list mean_ci does not raise: the n < 2 branch applies
and numpy's mean of an empty array is the NaN sentinel (none), never zero,
so the result is the degenerate interval (NaN, (NaN, NaN)). -/
theorem c10_mean_ci_empty (sqrtQ : ℚ → ℚ) (tppf : ℚ → ℕ → ℚ) :
    mean_ci sqrtQ tppf [] = (none, (none, none)) ∧
    npMean ([] : List ℚ) = none ∧ npMean ([] : List ℚ) ≠ some 0 := by
  refine ⟨?_, by norm_num [npMean], by simp [npMean]⟩
  unfold mean_ci
  norm_num [npMean]

/-- Membership in an insertion-sorted pending list. -/
lemma mem_insertEv {x e : Event} : ∀ {l : List Event},
    x ∈ insertEv e l ↔ x = e ∨ x ∈ l := by
  intro l
  induction l with
  | nil => simp [insertEv]
  | cons y ys ih =>
    simp only [insertEv]
    split
    · simp
    · simp [ih]; tauto

/-- env.run(until=Tsim) dispatches nothing once every pending event is
scheduled at or beyond the horizon. -/
lemma runUntil_stop (cfg : Cfg) (f : ℕ) (s : SimState)
    (h : ∀ e ∈ s.events, cfg.Tsim ≤ e.time) : runUntil cfg f s = s := by
  cases f with
  | zero => rfl
  | succ f =>
    rcases hev : s.events with _ | ⟨e, rest⟩ <;> simp only [runUntil, hev]
    have he : cfg.Tsim ≤ e.time := h e (by rw [hev]; exact List.mem_cons_self e rest)
    rw [if_neg (not_lt.mpr he)]

/-- One scheduler step: the earliest pending event, when it is inside the
horizon, is removed, the clock advances to its time, and it is dispatched. -/
lemma runUntil_cons (cfg : Cfg) (f : ℕ) (s : SimState) (e : Event)
    (rest : List Event) (hev : s.events = e :: rest) (hlt : e.time < cfg.Tsim) :
    runUntil cfg (f + 1) s =
      runUntil cfg f (dispatch cfg { s with events := rest, now := e.time } e.kind) := by
  simp only [runUntil, hev]
  rw [if_pos hlt]

/-- Trace of a run (lambda = mu = 1) with a single arrival at time a inside
the horizon whose service, drawn as v, straddles the horizon
(Tsim <= a + v), the next arrival falling beyond the horizon
(Tsim <= a + w).  For every capacity value cap whatsoever the run executes
the arrival events and stops with the customer still in the system: N stays
1 (the departure event at a + v is never dispatched), the area integral
covers the customer's presence exactly up to the horizon, and no
wait/sojourn samples are recorded.  With a positive capacity the customer
is in service at the horizon (busy time Tsim - a, empty queue area); with a
non-positive capacity (unreachable through simulate_mmc, whose resource
construction rejects it) it would wait forever (queue area Tsim - a). -/
lemma one_customer_trace (cap a v w Tsim : ℚ) (k : ℕ)
    (h0 : 0 < a) (h1 : a < Tsim) (h2 : Tsim ≤ a + v) (h3 : Tsim ≤ a + w) :
    (simulate_core ⟨1, 1, cap, Tsim⟩ (streamOf [a, w, v] 0) (k + 3)).tracker.N = 1 ∧
    (simulate_core ⟨1, 1, cap, Tsim⟩ (streamOf [a, w, v] 0) (k + 3)).tracker.areaN = Tsim - a ∧
    (simulate_core ⟨1, 1, cap, Tsim⟩ (streamOf [a, w, v] 0) (k + 3)).waits = [] ∧
    (simulate_core ⟨1, 1, cap, Tsim⟩ (streamOf [a, w, v] 0) (k + 3)).sysTimes = [] ∧
    (simulate_core ⟨1, 1, cap, Tsim⟩ (streamOf [a, w, v] 0) (k + 3)).busy =
      (if cap ≤ 0 then 0 else Tsim - a) ∧
    (simulate_core ⟨1, 1, cap, Tsim⟩ (streamOf [a, w, v] 0) (k + 3)).tracker.areaNq =
      (if cap ≤ 0 then Tsim - a else 0) := by
  have hw : 0 < w := by linarith
  have hlt2 : a < a + w := by linarith
  have hne1 : ¬ (a + w < a) := by linarith
  have hne2 : ¬ (a + w = a) := by intro h; linarith
  have hinit : init_state ⟨1, 1, cap, Tsim⟩ (streamOf [a, w, v] 0) =
      { now := 0, events := [⟨a, 1, 1, .arrGen⟩], seq := 2,
        stream := streamOf [a, w, v] 0, idx := 1, count := 0, resQ := [],
        tracker := ⟨0, 0, 0, 0, 0⟩, waits := [], sysTimes := [], busy := 0 } := by
    simp [init_state, streamOf]
  simp only [simulate_core, hinit]
  have e1 : runUntil ⟨1, 1, cap, Tsim⟩ (k + 2 + 1)
      { now := 0, events := [⟨a, 1, 1, .arrGen⟩], seq := 2,
        stream := streamOf [a, w, v] 0, idx := 1, count := 0, resQ := [],
        tracker := ⟨0, 0, 0, 0, 0⟩, waits := [], sysTimes := [], busy := 0 } =
      runUntil ⟨1, 1, cap, Tsim⟩ (k + 2)
        (dispatch ⟨1, 1, cap, Tsim⟩
          { now := a, events := [], seq := 2,
            stream := streamOf [a, w, v] 0, idx := 1, count := 0, resQ := [],
            tracker := ⟨0, 0, 0, 0, 0⟩, waits := [], sysTimes := [], busy := 0 } .arrGen) := by
    exact runUntil_cons _ _ _ ⟨a, 1, 1, .arrGen⟩ [] rfl h1
  rw [e1]
  rcases le_or_lt cap 0 with hcap | hcap
  · -- degenerate capacity: the request is queued forever, never granted
    have d1 : dispatch ⟨1, 1, cap, Tsim⟩
        { now := a, events := [], seq := 2,
          stream := streamOf [a, w, v] 0, idx := 1, count := 0, resQ := [],
          tracker := ⟨0, 0, 0, 0, 0⟩, waits := [], sysTimes := [], busy := 0 } .arrGen =
        { now := a, events := [⟨a, 0, 2, .custInit a⟩, ⟨a + w, 1, 3, .arrGen⟩], seq := 4,
          stream := streamOf [a, w, v] 0, idx := 2, count := 0, resQ := [],
          tracker := ⟨1, 1, a, 0, 0⟩, waits := [], sysTimes := [], busy := 0 } := by
      simp [dispatch, SimState.trackUpd, SimState.schedule, SimState.draw,
        AreaTracker.update, insertEv, keyLT, streamOf, h0, h1.asymm, hne1, hne2, hcap]
    rw [d1]
    have e2 : runUntil ⟨1, 1, cap, Tsim⟩ (k + 1 + 1)
        { now := a, events := [⟨a, 0, 2, .custInit a⟩, ⟨a + w, 1, 3, .arrGen⟩], seq := 4,
          stream := streamOf [a, w, v] 0, idx := 2, count := 0, resQ := [],
          tracker := ⟨1, 1, a, 0, 0⟩, waits := [], sysTimes := [], busy := 0 } =
        runUntil ⟨1, 1, cap, Tsim⟩ (k + 1)
          (dispatch ⟨1, 1, cap, Tsim⟩
            { now := a, events := [⟨a + w, 1, 3, .arrGen⟩], seq := 4,
              stream := streamOf [a, w, v] 0, idx := 2, count := 0, resQ := [],
              tracker := ⟨1, 1, a, 0, 0⟩, waits := [], sysTimes := [], busy := 0 } (.custInit a)) := by
      exact runUntil_cons _ _ _ ⟨a, 0, 2, .custInit a⟩ [⟨a + w, 1, 3, .arrGen⟩] rfl h1
    rw [e2]
    have hcc : ¬ ((0:ℚ) < cap) := not_lt.mpr hcap
    have d2 : dispatch ⟨1, 1, cap, Tsim⟩
        { now := a, events := [⟨a + w, 1, 3, .arrGen⟩], seq := 4,
          stream := streamOf [a, w, v] 0, idx := 2, count := 0, resQ := [],
          tracker := ⟨1, 1, a, 0, 0⟩, waits := [], sysTimes := [], busy := 0 } (.custInit a) =
        { now := a, events := [⟨a + w, 1, 3, .arrGen⟩], seq := 4,
          stream := streamOf [a, w, v] 0, idx := 2, count := 0, resQ := [a],
          tracker := ⟨1, 1, a, 0, 0⟩, waits := [], sysTimes := [], busy := 0 } := by
      simp [dispatch, SimState.triggerPut, hcc]
    rw [d2]
    have e3 := runUntil_stop ⟨1, 1, cap, Tsim⟩ (k + 1)
        { now := a, events := [⟨a + w, 1, 3, .arrGen⟩], seq := 4,
          stream := streamOf [a, w, v] 0, idx := 2, count := 0, resQ := [a],
          tracker := ⟨1, 1, a, 0, 0⟩, waits := [], sysTimes := [], busy := 0 }
        (by intro e he; simp at he; rw [he]; exact h3)
    rw [e3]
    simp [AreaTracker.update, hcap, show (0:ℚ) < Tsim - a by linarith]
  · -- a free server: immediate grant, service straddles the horizon
    have hcc : ¬ (cap ≤ (0:ℚ)) := not_le.mpr hcap
    have d1 : dispatch ⟨1, 1, cap, Tsim⟩
        { now := a, events := [], seq := 2,
          stream := streamOf [a, w, v] 0, idx := 1, count := 0, resQ := [],
          tracker := ⟨0, 0, 0, 0, 0⟩, waits := [], sysTimes := [], busy := 0 } .arrGen =
        { now := a, events := [⟨a, 0, 2, .custInit a⟩, ⟨a + w, 1, 3, .arrGen⟩], seq := 4,
          stream := streamOf [a, w, v] 0, idx := 2, count := 0, resQ := [],
          tracker := ⟨1, 0, a, 0, 0⟩, waits := [], sysTimes := [], busy := 0 } := by
      simp [dispatch, SimState.trackUpd, SimState.schedule, SimState.draw,
        AreaTracker.update, insertEv, keyLT, streamOf, h0, h1.asymm, hne1, hne2, hcc]
    rw [d1]
    have e2 : runUntil ⟨1, 1, cap, Tsim⟩ (k + 1 + 1)
        { now := a, events := [⟨a, 0, 2, .custInit a⟩, ⟨a + w, 1, 3, .arrGen⟩], seq := 4,
          stream := streamOf [a, w, v] 0, idx := 2, count := 0, resQ := [],
          tracker := ⟨1, 0, a, 0, 0⟩, waits := [], sysTimes := [], busy := 0 } =
        runUntil ⟨1, 1, cap, Tsim⟩ (k + 1)
          (dispatch ⟨1, 1, cap, Tsim⟩
            { now := a, events := [⟨a + w, 1, 3, .arrGen⟩], seq := 4,
              stream := streamOf [a, w, v] 0, idx := 2, count := 0, resQ := [],
              tracker := ⟨1, 0, a, 0, 0⟩, waits := [], sysTimes := [], busy := 0 } (.custInit a)) := by
      exact runUntil_cons _ _ _ ⟨a, 0, 2, .custInit a⟩ [⟨a + w, 1, 3, .arrGen⟩] rfl h1
    rw [e2]
    have d2 : dispatch ⟨1, 1, cap, Tsim⟩
        { now := a, events := [⟨a + w, 1, 3, .arrGen⟩], seq := 4,
          stream := streamOf [a, w, v] 0, idx := 2, count := 0, resQ := [],
          tracker := ⟨1, 0, a, 0, 0⟩, waits := [], sysTimes := [], busy := 0 } (.custInit a) =
        { now := a, events := [⟨a, 1, 4, .custGrant a⟩, ⟨a + w, 1, 3, .arrGen⟩], seq := 5,
          stream := streamOf [a, w, v] 0, idx := 2, count := 1, resQ := [],
          tracker := ⟨1, 0, a, 0, 0⟩, waits := [], sysTimes := [], busy := 0 } := by
      simp [dispatch, SimState.triggerPut, SimState.schedule, insertEv, keyLT, hcap, hlt2]
    rw [d2]
    have e3 : runUntil ⟨1, 1, cap, Tsim⟩ (k + 1)
        { now := a, events := [⟨a, 1, 4, .custGrant a⟩, ⟨a + w, 1, 3, .arrGen⟩], seq := 5,
          stream := streamOf [a, w, v] 0, idx := 2, count := 1, resQ := [],
          tracker := ⟨1, 0, a, 0, 0⟩, waits := [], sysTimes := [], busy := 0 } =
        runUntil ⟨1, 1, cap, Tsim⟩ k
          (dispatch ⟨1, 1, cap, Tsim⟩
            { now := a, events := [⟨a + w, 1, 3, .arrGen⟩], seq := 5,
              stream := streamOf [a, w, v] 0, idx := 2, count := 1, resQ := [],
              tracker := ⟨1, 0, a, 0, 0⟩, waits := [], sysTimes := [], busy := 0 } (.custGrant a)) := by
      exact runUntil_cons _ _ _ ⟨a, 1, 4, .custGrant a⟩ [⟨a + w, 1, 3, .arrGen⟩] rfl h1
    rw [e3]
    have hmax : max (0:ℚ) a = a := max_eq_right h0.le
    have hmin : min Tsim (a + v) = Tsim := min_eq_left h2
    have d3 : dispatch ⟨1, 1, cap, Tsim⟩
        { now := a, events := [⟨a + w, 1, 3, .arrGen⟩], seq := 5,
          stream := streamOf [a, w, v] 0, idx := 2, count := 1, resQ := [],
          tracker := ⟨1, 0, a, 0, 0⟩, waits := [], sysTimes := [], busy := 0 } (.custGrant a) =
        { now := a, events := insertEv ⟨a + v, 1, 5, .custDone a a v⟩ [⟨a + w, 1, 3, .arrGen⟩],
          seq := 6, stream := streamOf [a, w, v] 0, idx := 3, count := 1, resQ := [],
          tracker := ⟨1, 0, a, 0, 0⟩, waits := [], sysTimes := [], busy := Tsim - a } := by
      simp [dispatch, SimState.trackUpd, SimState.schedule, SimState.draw,
        AreaTracker.update, streamOf, hmax, hmin, h1]
    rw [d3]
    have e4 := runUntil_stop ⟨1, 1, cap, Tsim⟩ k
        { now := a, events := insertEv ⟨a + v, 1, 5, .custDone a a v⟩ [⟨a + w, 1, 3, .arrGen⟩],
          seq := 6, stream := streamOf [a, w, v] 0, idx := 3, count := 1, resQ := [],
          tracker := ⟨1, 0, a, 0, 0⟩, waits := [], sysTimes := [], busy := Tsim - a }
        (by
          intro e he
          rw [mem_insertEv] at he
          rcases he with he | he
          · rw [he]; exact h2
          · simp at he; rw [he]; exact h3)
    rw [e4]
    simp [AreaTracker.update, hcc, show (0:ℚ) < Tsim - a by linarith]

/-- C2 counterexample: lambda = mu = 1, Tsim = 10, stream giving one
arrival at time 1 with service time 100 (completion at 101 > Tsim) and the
next arrival at 101 (never dispatched).  The admitted customer's departure
step never executes: the final tracker still holds N = 1 (the claim's
"departure always decrements N" would force N = 0), and no sojourn sample
was recorded. -/
theorem c2_counterexample :
    (simulate_core ⟨1, 1, 1, 10⟩ (streamOf [1, 100, 100] 0) 10).tracker.N = 1 ∧
    (simulate_core ⟨1, 1, 1, 10⟩ (streamOf [1, 100, 100] 0) 10).sysTimes = [] := by
  norm_num [simulate_core, runUntil, init_state, dispatch, streamOf,
    SimState.schedule, SimState.draw, SimState.trackUpd, SimState.triggerPut,
    insertEv, keyLT, AreaTracker.update]

/-- C2 (amended): a customer in service when the horizon is reached never
runs its remaining steps: events scheduled at or beyond Tsim are not
dispatched by env.run(until=Tsim), so the departure step does not execute
and N is not decremented for that customer; it is the run driver's final
update(Tsim) that integrates the customer's presence into areaN exactly up
to the horizon, and the customer contributes no wait/sojourn samples. -/
theorem c2_departure_beyond_horizon (a v w Tsim : ℚ) (k : ℕ)
    (h0 : 0 < a) (h1 : a < Tsim) (h2 : Tsim ≤ a + v) (h3 : Tsim ≤ a + w) :
    (simulate_core ⟨1, 1, 1, Tsim⟩ (streamOf [a, w, v] 0) (k + 3)).tracker.N = 1 ∧
    (simulate_core ⟨1, 1, 1, Tsim⟩ (streamOf [a, w, v] 0) (k + 3)).tracker.areaN = Tsim - a ∧
    (simulate_core ⟨1, 1, 1, Tsim⟩ (streamOf [a, w, v] 0) (k + 3)).waits = [] ∧
    (simulate_mm1_simpy 1 1 Tsim (streamOf [a, w, v] 0) (k + 3)).Wq = none ∧
    (simulate_mm1_simpy 1 1 Tsim (streamOf [a, w, v] 0) (k + 3)).W = none := by
  have h := one_customer_trace 1 a v w Tsim k h0 h1 h2 h3
  refine ⟨h.1, h.2.1, h.2.2.1, ?_, ?_⟩ <;>
    simp [simulate_mm1_simpy, npMean, h.2.2.1, h.2.2.2.1]

/-- Witness for C2 at a = 1, v = w = 100, Tsim = 10. -/
theorem c2_witness :
    ((0 : ℚ) < 1 ∧ (1 : ℚ) < 10 ∧ (10 : ℚ) ≤ 1 + 100) ∧
    (simulate_core ⟨1, 1, 1, 10⟩ (streamOf [1, 100, 100] 0) 3).tracker.N = 1 ∧
    (simulate_mm1_simpy 1 1 10 (streamOf [1, 100, 100] 0) 3).Wq = none := by
  have h := c2_departure_beyond_horizon 1 100 100 10 0 (by norm_num)
    (by norm_num) (by norm_num) (by norm_num)
  exact ⟨⟨by norm_num, by norm_num, by norm_num⟩, h.1, h.2.2.2.1⟩

/-- C5 counterexample: the cross-run mean of the Wq column over two runs,
one of them the NaN sentinel, is computed with plain np.mean and is
therefore NaN (none); the claim's "NaN values are excluded" would require
the mean of the remaining run, some 2. -/
theorem c5_counterexample :
    (print_server_table [⟨1, some 2, 0, 65⟩, ⟨1, none, 0, 65⟩]).Wq_mean = none ∧
    (print_server_table [⟨1, some 2, 0, 65⟩, ⟨1, none, 0, 65⟩]).Wq_mean ≠ some 2 := by
  constructor <;> simp [print_server_table, npMeanF]

/-- C5 (amended): a run whose sample sets are empty (no departure by Tsim
records neither a wait nor a sojourn) reports the NaN sentinel for both Wq
and W, never zero; but the cross-run means use plain np.mean, so a NaN run
metric propagates and makes the cross-run mean NaN — NaN values are
neither zero-filled nor excluded. -/
theorem c5_nan_sentinel (lmbda mu Tsim : ℚ) (stream : ℕ → ℚ) (fuel : ℕ)
    (runs : List MMCMetrics)
    (hempty : (simulate_core ⟨lmbda, mu, 1, Tsim⟩ stream fuel).waits = [])
    (hsys : (simulate_core ⟨lmbda, mu, 1, Tsim⟩ stream fuel).sysTimes = [])
    (hnan : none ∈ runs.map (·.Wq)) :
    ((simulate_mm1_simpy lmbda mu Tsim stream fuel).Wq = none ∧
     (simulate_mm1_simpy lmbda mu Tsim stream fuel).Wq ≠ some 0 ∧
     (simulate_mm1_simpy lmbda mu Tsim stream fuel).W = none ∧
     (simulate_mm1_simpy lmbda mu Tsim stream fuel).W ≠ some 0) ∧
    (print_server_table runs).Wq_mean = none := by
  refine ⟨⟨?_, ?_, ?_, ?_⟩, ?_⟩
  · simp [simulate_mm1_simpy, npMean, hempty]
  · simp [simulate_mm1_simpy, npMean, hempty]
  · simp [simulate_mm1_simpy, npMean, hsys]
  · simp [simulate_mm1_simpy, npMean, hsys]
  · have hne : runs.map (·.Wq) ≠ [] := by
      intro hc; rw [hc] at hnan; exact List.not_mem_nil none hnan
    simp only [print_server_table, npMeanF]
    rw [if_neg hne, if_pos hnan]

/-- Witness for C5: a run with no departure by the horizon yields the NaN
sentinel for both Wq and W, and a runs list containing a NaN metric has a
NaN cross-run mean. -/
theorem c5_witness :
    (simulate_mm1_simpy 1 1 10 (streamOf [1, 100, 100] 0) 10).Wq = none ∧
    (simulate_mm1_simpy 1 1 10 (streamOf [1, 100, 100] 0) 10).W = none ∧
    (print_server_table [⟨1, none, 0, 65⟩]).Wq_mean = none := by
  have hempty : (simulate_core ⟨1, 1, 1, 10⟩ (streamOf [1, 100, 100] 0) 10).waits = [] ∧
      (simulate_core ⟨1, 1, 1, 10⟩ (streamOf [1, 100, 100] 0) 10).sysTimes = [] := by
    refine ⟨?_, ?_⟩ <;>
      norm_num [simulate_core, runUntil, init_state, dispatch, streamOf,
        SimState.schedule, SimState.draw, SimState.trackUpd, SimState.triggerPut,
        insertEv, keyLT, AreaTracker.update]
  have h := c5_nan_sentinel 1 1 10 (streamOf [1, 100, 100] 0) 10
    [⟨1, none, 0, 65⟩] hempty.1 hempty.2 (by simp)
  exact ⟨h.1.1, h.1.2.2.1, h.2⟩

/-- C6 counterexample: with the non-integer server count c = 3/2 the driver
does not fail fast: simpy only rejects capacity <= 0, so it creates the
simulation state, dispatches the arrival events of the run (the final area
integral is 9, so simulated time was consumed), and returns a complete
metrics record. -/
theorem c6_counterexample :
    simulate_mmc 1 1 (3 / 2) 10 (streamOf [1, 100, 100] 0) 10 =
      .ok ⟨3 / 5, none, 0, 75⟩ ∧
    (simulate_core ⟨1, 1, 3 / 2, 10⟩ (streamOf [1, 100, 100] 0) 10).tracker.areaN = 9 ∧
    ¬ ∃ n : ℤ, ((3 : ℚ) / 2) = (n : ℚ) := by
  refine ⟨?_, ?_, ?_⟩
  · norm_num [simulate_mmc, simulate_core, runUntil, init_state, dispatch, streamOf,
      SimState.schedule, SimState.draw, SimState.trackUpd, SimState.triggerPut,
      insertEv, keyLT, AreaTracker.update, npMean, SERVER_COST_PER_HR, WAIT_COST_PER_HR]
  · norm_num [simulate_core, runUntil, init_state, dispatch, streamOf,
      SimState.schedule, SimState.draw, SimState.trackUpd, SimState.triggerPut,
      insertEv, keyLT, AreaTracker.update]
  · rintro ⟨n, hn⟩
    have h3 : (3 : ℚ) = 2 * (n : ℚ) := by linarith
    have h4 : (3 : ℤ) = 2 * n := by exact_mod_cast h3
    omega

/-- C6 (amended): the run driver itself performs no configuration
validation and in particular never rejects a non-integer server count: for
every cap > 0, integer or not, it constructs the simulation state,
dispatches the events of the run (the arrival is admitted: N = 1 and
areaN = Tsim - a > 0) and returns a complete metrics record.  The only
up-front failure is simpy.Resource's ValueError for capacity <= 0
(mmq_sim.py line 90), raised after the rng and environment are created — a
library error, not the spec's ConfigurationError, and no check at all
covers the rates or the horizon. -/
theorem c6_no_config_validation (cap a v w Tsim : ℚ) (k : ℕ)
    (hcap : 0 < cap)
    (h0 : 0 < a) (h1 : a < Tsim) (h2 : Tsim ≤ a + v) (h3 : Tsim ≤ a + w) :
    ((simulate_core ⟨1, 1, cap, Tsim⟩ (streamOf [a, w, v] 0) (k + 3)).tracker.N = 1 ∧
     (simulate_core ⟨1, 1, cap, Tsim⟩ (streamOf [a, w, v] 0) (k + 3)).tracker.areaN = Tsim - a ∧
     simulate_mmc 1 1 cap Tsim (streamOf [a, w, v] 0) (k + 3) =
       .ok ⟨(Tsim - a) / (cap * Tsim), none, 0, SERVER_COST_PER_HR * cap⟩) ∧
    (∀ (c lm m T : ℚ) (stream : ℕ → ℚ) (fuel : ℕ), c ≤ 0 →
      simulate_mmc lm m c T stream fuel =
        .error (.valueError "\"capacity\" must be > 0.")) := by
  have h := one_customer_trace cap a v w Tsim k h0 h1 h2 h3
  have hnc : ¬ (cap ≤ 0) := not_le.mpr hcap
  refine ⟨⟨h.1, h.2.1, ?_⟩, ?_⟩
  · simp only [simulate_mmc]
    rw [if_neg hnc, h.2.2.1, h.2.2.2.2.1, h.2.2.2.2.2, if_neg hnc, if_neg hnc]
    simp [npMean, SERVER_COST_PER_HR, WAIT_COST_PER_HR]
  · intro c lm m T stream fuel hc
    simp only [simulate_mmc]
    rw [if_pos hc]

/-- Witness for C6 at the non-integer capacity 3/2 (accepted, full run) and
at the negative capacity -1 (rejected by simpy's Resource check). -/
theorem c6_witness :
    ((0 : ℚ) < 3 / 2 ∧ (0 : ℚ) < 1 ∧ (1 : ℚ) < 10 ∧ (10 : ℚ) ≤ 1 + 100) ∧
    simulate_mmc 1 1 (3 / 2) 10 (streamOf [1, 100, 100] 0) 3 =
      .ok ⟨3 / 5, none, 0, 75⟩ ∧
    simulate_mmc 1 1 (-1) 10 (streamOf [1, 100, 100] 0) 3 =
      .error (.valueError "\"capacity\" must be > 0.") := by
  have h := c6_no_config_validation (3 / 2) 1 100 100 10 0 (by norm_num)
    (by norm_num) (by norm_num) (by norm_num) (by norm_num)
  refine ⟨⟨by norm_num, by norm_num, by norm_num, by norm_num⟩, ?_, ?_⟩
  · rw [h.1.2.2]
    norm_num [SERVER_COST_PER_HR, Except.ok.injEq, MMCMetrics.mk.injEq]
  · exact h.2 (-1) 1 1 10 (streamOf [1, 100, 100] 0) 3 (by norm_num)

/-- C7 counterexample: lambda = mu = 1, Tsim = 10, draws
ia1 = 1, ia2 = 2, svc1 = 2, ia3 = 100, svc2 = 1.  Customer 1 is served on
[1, 3]; customer 2 arrives at exactly time 3, before the earlier-scheduled
departure of customer 1 is dispatched, so it is counted into Nq; at the
same instant the server frees up and customer 2 starts service with zero
wait, so its Nq decrement never happens.  After customer 2 departs at time
4 the tracker holds N = 0 < Nq = 1: the claimed invariant N >= Nq fails at
an observable inter-step point, and the queue-counted arrival was never
decremented from Nq. -/
theorem c7_counterexample :
    (simulate_core ⟨1, 1, 1, 10⟩ (streamOf [1, 2, 2, 100, 1] 0) 20).tracker.N = 0 ∧
    (simulate_core ⟨1, 1, 1, 10⟩ (streamOf [1, 2, 2, 100, 1] 0) 20).tracker.Nq = 1 ∧
    ¬ ((simulate_core ⟨1, 1, 1, 10⟩ (streamOf [1, 2, 2, 100, 1] 0) 20).tracker.Nq ≤
        (simulate_core ⟨1, 1, 1, 10⟩ (streamOf [1, 2, 2, 100, 1] 0) 20).tracker.N) := by
  refine ⟨?_, ?_, ?_⟩ <;>
    norm_num [simulate_core, runUntil, init_state, dispatch, streamOf,
      SimState.schedule, SimState.draw, SimState.trackUpd, SimState.triggerPut,
      insertEv, keyLT, AreaTracker.update]

/-- C7 (amended): the per-event queue accounting is as claimed — an arrival
inside the horizon increments N, and increments Nq exactly when all
servers are occupied (count >= capacity), so an arrival finding a free
server is never counted into Nq; a customer starting service decrements Nq
exactly once if and only if its wait is positive, and a departure
decrements N and leaves Nq untouched.  The global invariant N >= Nq,
however, can fail: an arrival dispatched at the same timestamp as an
earlier-scheduled departure is counted into Nq, then starts service with
zero wait and never decrements Nq (see the counterexample). -/
theorem c7_queue_accounting (cfg : Cfg) (s : SimState) (arr ss sv : ℚ) :
    ((dispatch cfg s .arrGen).tracker.N =
      if cfg.Tsim < s.now then s.tracker.N else s.tracker.N + 1) ∧
    ((dispatch cfg s .arrGen).tracker.Nq =
      if cfg.Tsim < s.now then s.tracker.Nq
      else if cfg.cap ≤ (s.count : ℚ) then s.tracker.Nq + 1 else s.tracker.Nq) ∧
    ((dispatch cfg s (.custGrant arr)).tracker.Nq =
      if 0 < s.now - arr then s.tracker.Nq - 1 else s.tracker.Nq) ∧
    ((dispatch cfg s (.custDone arr ss sv)).tracker.N = s.tracker.N - 1) ∧
    ((dispatch cfg s (.custDone arr ss sv)).tracker.Nq = s.tracker.Nq) := by
  refine ⟨?_, ?_, ?_, ?_, ?_⟩
  · simp only [dispatch, SimState.trackUpd, SimState.schedule, SimState.draw]
    split_ifs with hA hB <;>
      simp_all [AreaTracker.update_N, ge_iff_le, gt_iff_lt]
  · simp only [dispatch, SimState.trackUpd, SimState.schedule, SimState.draw]
    split_ifs with hA hB <;>
      simp_all [AreaTracker.update_Nq, ge_iff_le, gt_iff_lt]
  · simp only [dispatch, SimState.trackUpd, SimState.schedule, SimState.draw]
    split_ifs with hA hB <;>
      simp_all [AreaTracker.update_Nq, gt_iff_lt]
  · simp only [dispatch, SimState.trackUpd, SimState.schedule, SimState.triggerPut]
    rcases hq : s.resQ with _ | ⟨q, qs⟩ <;> split_ifs <;>
      simp_all [AreaTracker.update_N]
  · simp only [dispatch, SimState.trackUpd, SimState.schedule, SimState.triggerPut]
    rcases hq : s.resQ with _ | ⟨q, qs⟩ <;> split_ifs <;>
      simp_all [AreaTracker.update_Nq]

/-- The SimPy event key order is irreflexive. -/
lemma keyLT_irrefl (x : Event) : ¬ keyLT x x := by simp [keyLT]

/-- The SimPy event key order is transitive. -/
lemma keyLT_trans {x y z : Event} (h1 : keyLT x y) (h2 : keyLT y z) :
    keyLT x z := by
  unfold keyLT at *
  rcases h1 with h1 | ⟨e1, h1⟩ <;> rcases h2 with h2 | ⟨e2, h2⟩
  · exact Or.inl (h1.trans h2)
  · exact Or.inl (h1.trans_eq e2)
  · exact Or.inl (lt_of_eq_of_lt e1 h2)
  · refine Or.inr ⟨e1.trans e2, ?_⟩
    rcases h1 with p1 | ⟨pe1, s1⟩ <;> rcases h2 with p2 | ⟨pe2, s2⟩
    · exact Or.inl (p1.trans p2)
    · exact Or.inl (p1.trans_eq pe2)
    · exact Or.inl (lt_of_eq_of_lt pe1 p2)
    · exact Or.inr ⟨pe1.trans pe2, s1.trans s2⟩

/-- The SimPy event key order is asymmetric. -/
lemma keyLT_asymm {x y : Event} (h : keyLT x y) : ¬ keyLT y x :=
  fun h2 => keyLT_irrefl x (keyLT_trans h h2)

/-- Inserting into a key-sorted pending list keeps it key-sorted. -/
lemma sorted_insertEv (e : Event) : ∀ l : List Event,
    List.Sorted (fun x y => ¬ keyLT y x) l →
    List.Sorted (fun x y => ¬ keyLT y x) (insertEv e l) := by
  intro l
  induction l with
  | nil => intro _; simp [insertEv]
  | cons x xs ih =>
    intro hs
    rw [List.sorted_cons] at hs
    obtain ⟨hx, hxs⟩ := hs
    simp only [insertEv]
    split_ifs with hlt
    · rw [List.sorted_cons]
      refine ⟨?_, List.sorted_cons.mpr ⟨hx, hxs⟩⟩
      intro b hb
      rcases List.mem_cons.mp hb with rfl | hb
      · exact keyLT_asymm hlt
      · exact fun hby => hx b hb (keyLT_trans hby hlt)
    · rw [List.sorted_cons]
      refine ⟨?_, ih hxs⟩
      intro b hb
      rcases mem_insertEv.mp hb with rfl | hb
      · exact hlt
      · exact hx b hb

/-- In a key-sorted pending list, no pending event strictly precedes the
head, so the head dispatched by the scheduler is the unique earliest
(time, priority, sequence) event. -/
lemma sorted_head_min (x : Event) (l : List Event)
    (hs : List.Sorted (fun a b => ¬ keyLT b a) (x :: l)) :
    ∀ y ∈ x :: l, ¬ keyLT y x := by
  intro y hy
  rcases List.mem_cons.mp hy with rfl | hy
  · exact keyLT_irrefl y
  · exact (List.sorted_cons.mp hs).1 y hy

/-- C9: the run drivers are deterministic functions of their parameters and
the seed-derived random stream: two invocations with extensionally equal
streams produce bit-identical RunMetrics records, for both the M/M/c and
the M/M/1 driver (there is no shared state between runs — each invocation
builds a fresh environment, resource, tracker and stats).  Moreover the
scheduler's dispatch order is well defined: insertion keeps the pending
list sorted by the (time, priority, sequence) key, and no pending event
strictly precedes the dispatched head. -/
theorem c9_deterministic_runs :
    (∀ (lmbda mu c Tsim : ℚ) (fuel : ℕ) (s1 s2 : ℕ → ℚ), (∀ n, s1 n = s2 n) →
      simulate_mmc lmbda mu c Tsim s1 fuel = simulate_mmc lmbda mu c Tsim s2 fuel ∧
      simulate_mm1_simpy lmbda mu Tsim s1 fuel = simulate_mm1_simpy lmbda mu Tsim s2 fuel) ∧
    (∀ (e : Event) (l : List Event), List.Sorted (fun x y => ¬ keyLT y x) l →
      List.Sorted (fun x y => ¬ keyLT y x) (insertEv e l)) ∧
    (∀ (x : Event) (l : List Event),
      List.Sorted (fun a b => ¬ keyLT b a) (x :: l) →
      ∀ y ∈ x :: l, ¬ keyLT y x) := by
  refine ⟨?_, sorted_insertEv, sorted_head_min⟩
  intro lmbda mu c Tsim fuel s1 s2 h
  have hs : s1 = s2 := funext h
  subst hs
  exact ⟨rfl, rfl⟩

/-- Witness for C9: two syntactically distinct, extensionally equal streams
give bit-identical metrics. -/
theorem c9_witness :
    simulate_mmc (9 / 5) 1 2 10 (streamOf [] 1) 5 =
      simulate_mmc (9 / 5) 1 2 10 (fun _ => 1) 5 :=
  (c9_deterministic_runs.1 (9 / 5) 1 2 10 5 (streamOf [] 1) (fun _ => 1)
    (fun n => by simp [streamOf])).1
